import Mathlib

/-
Verification of the Scale traffic-simulation core.

This file gives a shallow embedding, over exact rational arithmetic, of:
  * src/scale/src/map_model/light_policy.rs  (LightPolicy::apply)
  * src/scale/src/map_model/turn.rs          (Turn::make_points)
  * src/scale/src/utils.rs                   (Restrict::restrict)
  * src/scale/src/vehicles/systems.rs        (calc_decision, vehicle_physics)

Parts of the repository that the above code consumes but whose sources are
not available (lane.rs, road.rs, intersection.rs, traffic light schedule,
geometry/splines.rs, geometry/intersections.rs, the rand crate) are modelled
from the specification; each such definition carries a doc comment starting
with "Modelled from the spec:".  Floating-point values of the source are
embedded as rationals; square roots (vector magnitudes) and other external
computations are supplied as explicit data or oracle parameters.
-/

namespace Scale

/-! ## Geometry primitives -/

/-- 2D vector, embedding cgmath's `Vector2<f32>` with exact rationals. -/
abbrev Vec2 := ℚ × ℚ

/-- Dot product of two 2D vectors (cgmath `InnerSpace::dot`). -/
def dot (a b : Vec2) : ℚ := a.1 * b.1 + a.2 * b.2

/-- Squared distance between two points (cgmath `MetricSpace::distance2`). -/
def distance2 (a b : Vec2) : ℚ := (a.1 - b.1) ^ 2 + (a.2 - b.2) ^ 2

/-- Scalar multiplication of a 2D vector. -/
def smul (k : ℚ) (v : Vec2) : Vec2 := (k * v.1, k * v.2)

/-- Vector subtraction. -/
def vsub (a b : Vec2) : Vec2 := (a.1 - b.1, a.2 - b.2)

/-- Vector addition. -/
def vadd (a b : Vec2) : Vec2 := (a.1 + b.1, a.2 + b.2)

/-! ## Map-model data (light_policy.rs and the data it reads) -/

/-- Lane identifier (slotmap key in the source, embedded as a natural). -/
abbrev LaneID := ℕ

/-- Road identifier. -/
abbrev RoadID := ℕ

/-- Modelled from the spec: a `TrafficLightSchedule` is "a fixed repeating
cycle described by (green duration, orange duration, cycle length, phase
offset)" (spec section 3); the file defining it is not in src/. -/
structure TrafficLightSchedule where
  green : ℕ
  orange : ℕ
  cycle : ℕ
  offset : ℕ
  deriving DecidableEq, Repr

/-- Modelled from the spec: `TrafficLightSchedule::from_basic` packs the four
schedule parameters in the order (green duration, orange duration, cycle
length, phase offset) given by the spec's data model. -/
def TrafficLightSchedule.from_basic (green orange cycle offset : ℕ) :
    TrafficLightSchedule :=
  ⟨green, orange, cycle, offset⟩

/-- Per-lane traffic control regime (spec section 3 and the variants used by
light_policy.rs): unrestricted, stop sign, or a timed light. -/
inductive TrafficControl where
  | Always : TrafficControl
  | StopSign : TrafficControl
  | Light : TrafficLightSchedule → TrafficControl
  deriving DecidableEq, Repr

/-- Result of evaluating a lane's control at a timestamp (the variants
matched on by systems.rs; the type itself is not in src/). -/
inductive TrafficBehavior where
  | RED : TrafficBehavior
  | ORANGE : TrafficBehavior
  | GREEN : TrafficBehavior
  | STOP : TrafficBehavior
  deriving DecidableEq, Repr

/-- Modelled from the spec: a lane record with the fields light_policy.rs and
turn.rs read — parent road, whether the lane kind needs light control
(`kind.needs_light()`), the current control, the lane's end position at a
given intersection (`get_inter_node_pos`) and its orientation vector
(`get_orientation_vec`).  The file lane.rs is not in src/. -/
structure Lane where
  parent : RoadID
  needsLight : Bool
  control : TrafficControl
  interNodePos : ℕ → Vec2
  orientationVec : Vec2

/-- The lane store, indexed by lane id. -/
abbrev Lanes := LaneID → Lane

/-- Modelled from the spec: the road data light_policy.rs reads, specialised
to the one intersection being processed — `incoming_lanes_to(inter.id)` and
`dir_from(inter.id, inter.pos)`.  The file road.rs is not in src/. -/
structure Road where
  incomingTo : List LaneID
  dirFrom : Vec2

/-- The road store, indexed by road id. -/
abbrev Roads := RoadID → Road

/-- Modelled from the spec: the intersection fields light_policy.rs reads —
stable identifier (`id.as_ffi()`), position, and connected road ids. -/
structure Intersection where
  id : ℕ
  pos : Vec2
  roads : List RoadID

/-- The four light policies of light_policy.rs. -/
inductive LightPolicy where
  | NoLights : LightPolicy
  | StopSigns : LightPolicy
  | Lights : LightPolicy
  | Smart : LightPolicy
  deriving DecidableEq, Repr

/-! ## LightPolicy::apply (light_policy.rs lines 24-101) -/

/-- The road-group computation at the top of `LightPolicy::apply`: group the
incoming lanes of each connected road, keep those whose kind needs a light,
and drop empty groups. -/
def inRoadLanes (inter : Intersection) (lanes : Lanes) (roads : Roads) :
    List (List LaneID) :=
  (inter.roads.map fun x =>
      (roads x).incomingTo.filter fun l => (lanes l).needsLight).filter
    fun v => !v.isEmpty

/-- Write a control value into one lane (`lanes[lane].control = c`). -/
def setControl (lanes : Lanes) (lane : LaneID) (c : TrafficControl) : Lanes :=
  fun y => if y = lane then { lanes y with control := c } else lanes y

/-- Write a control value into every lane of one road group (the inner `for`
loops of `LightPolicy::apply`). -/
def setRow (lanes : Lanes) (grp : List LaneID) (c : TrafficControl) : Lanes :=
  grp.foldl (fun a x => setControl a x c) lanes

/-- Write a control value into every lane of every road group (the nested
`for` loops of `LightPolicy::apply`). -/
def setAll (lanes : Lanes) (groups : List (List LaneID)) (c : TrafficControl) :
    Lanes :=
  groups.foldl (fun a g => setRow a g c) lanes

/-- The light assigned to the road group of enumeration index `i` in the
lights branch of `LightPolicy::apply`, with cycle size `cs`, orange length
`ol` and base offset `off`. -/
def lightAt (cs ol off i : ℕ) : TrafficControl :=
  TrafficControl.Light
    (TrafficLightSchedule.from_basic cs ol (cs + ol)
      (if i % 2 = 0 then cs + ol + off else off))

/-- The enumerated loop of the lights branch: assign `lightAt cs ol off i` to
every lane of the group at running index `i`. -/
def applyLightsFrom (cs ol off : ℕ) : ℕ → List (List LaneID) → Lanes → Lanes
  | _, [], ls => ls
  | i, grp :: rest, ls =>
    applyLightsFrom cs ol off (i + 1) rest (setRow ls grp (lightAt cs ol off i))

/-- The lights branch of `LightPolicy::apply` (lines 76-98): fixed cycle
constants, a base offset drawn from a generator seeded with the intersection
id, and per-group lights alternating by enumeration index parity.
`genRange seed n` models `SmallRng::seed_from_u64(seed).gen_range(0, n)`
(the rand crate is external). -/
def applyLights (genRange : ℕ → ℕ → ℕ) (interId : ℕ)
    (groups : List (List LaneID)) (lanes : Lanes) : Lanes :=
  let cycle_size := 10
  let orange_length := 4
  let offset := genRange interId cycle_size
  applyLightsFrom cycle_size orange_length offset 0 groups lanes

/-- One iteration of the perpendicular-road search (lines 59-71): state is
(max_ang, perp_road); update when the angle at index `i` strictly exceeds
the running maximum. -/
def perpStep (angOf : ℕ → ℚ) (st : ℚ × Option ℕ) (i : ℕ) : ℚ × Option ℕ :=
  if angOf i > st.1 then (angOf i, some ((i + 2) % 3)) else st

/-- The perpendicular-road search: fold the three cyclic pairs starting from
(0.0, None) and return the recorded road index, if any. -/
def perpRoad (angOf : ℕ → ℚ) : Option ℕ :=
  (([0, 1, 2] : List ℕ).foldl (perpStep angOf) (0, none)).2

/-- The absolute angular difference read in iteration `i` of the
perpendicular-road search: roads of the heads of groups `i` and `(i+1) % 3`,
their directions from the intersection, and `dir_a.angle(dir_b).0.abs()`.
`angFn u v` models cgmath's `u.angle(v).0` (a transcendental the source
consumes; its absolute value is taken here exactly as in the source). -/
def angOf (angFn : Vec2 → Vec2 → ℚ) (roads : Roads) (lanes : Lanes)
    (groups : List (List LaneID)) (i : ℕ) : ℚ :=
  let a := (lanes ((groups.getD i []).headD 0)).parent
  let b := (lanes ((groups.getD ((i + 1) % 3) []).headD 0)).parent
  |angFn (roads a).dirFrom (roads b).dirFrom|

/-- Shallow embedding of `LightPolicy::apply` (light_policy.rs lines 24-101).
Returns `none` exactly when the source would panic (the
`perp_road.unwrap()` on line 72). -/
def LightPolicy.apply (pol : LightPolicy) (angFn : Vec2 → Vec2 → ℚ)
    (genRange : ℕ → ℕ → ℕ) (inter : Intersection) (lanes : Lanes)
    (roads : Roads) : Option Lanes :=
  let in_road_lanes := inRoadLanes inter lanes roads
  let two_lanes_or_less := in_road_lanes.length ≤ 2
  let lanes1 := setAll lanes in_road_lanes TrafficControl.Always
  match pol with
  | LightPolicy.NoLights => some lanes1
  | LightPolicy.StopSigns =>
    some (setAll lanes1 in_road_lanes TrafficControl.StopSign)
  | LightPolicy.Smart =>
    if two_lanes_or_less then some lanes1
    else if in_road_lanes.length = 3 then
      match perpRoad (angOf angFn roads lanes1 in_road_lanes) with
      | none => none
      | some p =>
        some (setAll lanes1 [in_road_lanes.getD p []] TrafficControl.StopSign)
    else some (applyLights genRange inter.id in_road_lanes lanes1)
  | LightPolicy.Lights => some (applyLights genRange inter.id in_road_lanes lanes1)

/-- The control `applyLightsFrom` leaves on lane `l`, as a recursive function
of the groups, the running index, and the control the lane started with. -/
def lightsCtrl (cs ol off : ℕ) (l : LaneID) :
    ℕ → List (List LaneID) → TrafficControl → TrafficControl
  | _, [], d => d
  | i, g :: rest, d =>
    lightsCtrl cs ol off l (i + 1) rest (if l ∈ g then lightAt cs ol off i else d)

/-! ## turn.rs: TurnID, TurnKind, Spline, Turn::make_points -/

/-- Turn identifier (turn.rs lines 8-12): parent intersection, source and
destination lanes. -/
structure TurnID where
  parent : ℕ
  src : LaneID
  dst : LaneID
  deriving DecidableEq, Repr

/-- The three turn kinds of turn.rs. -/
inductive TurnKind where
  | Crosswalk : TurnKind
  | WalkingCorner : TurnKind
  | Normal : TurnKind
  deriving DecidableEq, Repr

/-- `TurnKind::is_crosswalk` (turn.rs lines 28-30). -/
def TurnKind.is_crosswalk : TurnKind → Bool
  | TurnKind.Crosswalk => true
  | _ => false

/-- Modelled from the spec: the cubic Hermite spline of geometry/splines.rs
(not in src/), holding endpoint positions and already-scaled tangent
vectors (spec section 4.1). -/
structure Spline where
  fromPos : Vec2
  toPos : Vec2
  fromDerivative : Vec2
  toDerivative : Vec2

/-- Modelled from the spec: cubic Hermite interpolation of the spline at
parameter `t` in [0,1]. -/
def Spline.get (s : Spline) (t : ℚ) : Vec2 :=
  vadd
    (vadd (smul (2 * t ^ 3 - 3 * t ^ 2 + 1) s.fromPos)
      (smul (t ^ 3 - 2 * t ^ 2 + t) s.fromDerivative))
    (vadd (smul (-2 * t ^ 3 + 3 * t ^ 2) s.toPos)
      (smul (t ^ 3 - t ^ 2) s.toDerivative))

/-- A turn (turn.rs lines 33-38): id, sampled path points (the `PolyLine`
embedded as a list), kind. -/
structure Turn where
  id : TurnID
  points : List Vec2
  kind : TurnKind

/-- Shallow embedding of `Turn::make_points` (turn.rs lines 49-87): clear
the stored points, then either a straight two-point crosswalk path or
start point, 6 Hermite samples, end point.  `magnitude v` supplies the
Euclidean norm used to scale the tangent vectors (a square root, external
to exact rational arithmetic); the produced point counts do not depend on
it. -/
def Turn.make_points (t : Turn) (magnitude : Vec2 → ℚ) (lanes : Lanes) : Turn :=
  let N_SPLINE : ℕ := 6
  let src_lane := lanes t.id.src
  let dst_lane := lanes t.id.dst
  let pos_src := src_lane.interNodePos t.id.parent
  let pos_dst := dst_lane.interNodePos t.id.parent
  if t.kind.is_crosswalk then
    { t with points := [] ++ [pos_src] ++ [pos_dst] }
  else
    let dist := magnitude (vsub pos_dst pos_src) / 2
    let derivative_src := smul dist src_lane.orientationVec
    let derivative_dst := smul dist dst_lane.orientationVec
    let spline : Spline := ⟨pos_src, pos_dst, derivative_src, derivative_dst⟩
    let pts := [] ++ [pos_src]
    let pts := pts ++ (List.range' 1 N_SPLINE).map
      (fun (i : ℕ) => spline.get ((i : ℚ) / ((N_SPLINE : ℚ) + 1)))
    { t with points := pts ++ [pos_dst] }

/-! ## utils.rs and vehicles/systems.rs -/

/-- `Restrict::restrict` (utils.rs lines 56-70), at rationals. -/
def restrict (x mn mx : ℚ) : ℚ :=
  if x < mn then mn else if x > mx then mx else x

/-- The speed-integration step of `vehicle_physics` (systems.rs lines
82-86): move from the current speed toward the desired speed by a change
restricted between `-delta * deceleration` and `delta * acceleration`. -/
def integrateSpeed (speed desired_speed delta deceleration acceleration : ℚ) : ℚ :=
  speed + restrict (desired_speed - speed) (-(delta * deceleration))
    (delta * acceleration)

/-- `OBJECTIVE_OK_DIST` (systems.rs line 16). -/
def OBJECTIVE_OK_DIST : ℚ := 4

/-- `TraverseKind` (map_model; the variants used by systems.rs). -/
inductive TraverseKind where
  | Lane : LaneID → TraverseKind
  | Turn : TurnID → TraverseKind
  deriving DecidableEq, Repr

/-- `TraverseKind::is_lane`. -/
def TraverseKind.is_lane : TraverseKind → Bool
  | TraverseKind.Lane _ => true
  | TraverseKind.Turn _ => false

/-- The normal vector of a direction as `Transform::normal` computes it
(transform.rs lines 79-81: `(-sin, cos)`). -/
def normalOf (d : Vec2) : Vec2 := (-d.2, d.1)

/-- One neighbor as seen by `calc_decision`: the `(his_pos, PhysicsObject)`
data plus two externally supplied values — `dist`, the Euclidean norm of
`his_pos - position` (a square root), and `interDist`, the result of
`both_dist_to_inter(my_ray, his_ray)`.  Modelled from the spec:
geometry/intersections.rs is not in src/; `interDist` is the pair of both
parties' distances to the crossing point of their front-edge rays, `none`
when the rays do not cross. -/
structure PhysicsObjData where
  pos : Vec2
  dist : ℚ
  dir : Vec2
  radius : ℚ
  speed : ℚ
  isVehicle : Bool
  interDist : Option (ℚ × ℚ)

/-- The mutable vehicle fields written by `calc_decision`. -/
structure VehicleState where
  waitTime : ℚ
  desiredSpeed : ℚ
  desiredDir : Vec2
  deriving DecidableEq, Repr

/-- The per-tick inputs of `calc_decision`: tick delta, current signed
speed, transform data, vehicle-kind constants, itinerary data
(`objective = itinerary.get_point()`, `dirDist = delta_pos.dir_dist()`
supplied as data since the geometry module is not in src/,
`remainingPoints`, the unwrapped current traversable kind), the lane
control evaluation `getBehavior l` modelling
`lanes[l].control.get_behavior(time.time_seconds)` (schedule evaluation is
not in src/), the neighbor list, and the oracle draw of
`rand_det::<f32>()` (uniform on [0,1) per the rand crate). -/
structure DecisionCtx where
  delta : ℚ
  speed : ℚ
  position : Vec2
  direction : Vec2
  width : ℚ
  deceleration : ℚ
  cruisingSpeed : ℚ
  objective : Option Vec2
  dirDist : Option (Vec2 × ℚ)
  remainingPoints : ℕ
  trav : TraverseKind
  getBehavior : LaneID → TrafficBehavior
  neighbors : List PhysicsObjData
  randDraw : ℚ

/-- `stop_dist` of `calc_decision` (systems.rs lines 190-191):
`time_to_stop * speed / 2` with `time_to_stop = speed / deceleration`. -/
def stopDistOf (speed deceleration : ℚ) : ℚ :=
  let time_to_stop := speed / deceleration
  time_to_stop * speed / 2

/-- The traffic-light speed cap of `calc_decision` (systems.rs lines
265-289): when exactly one point remains and the current traversable is a
lane, evaluate its control and stop for RED/ORANGE within
`OBJECTIVE_OK_DIST * 1.05 + stop_dist + max(width/2 - OBJECTIVE_OK_DIST, 0)`
and for STOP within `OBJECTIVE_OK_DIST * 0.95 + stop_dist`. -/
def lightCapStep (remaining_points : ℕ) (trav : TraverseKind)
    (getBehavior : LaneID → TrafficBehavior)
    (dist_to_pos stop_dist width desired_speed : ℚ) : ℚ :=
  if remaining_points = 1 then
    match trav with
    | TraverseKind.Lane l_id =>
      match getBehavior l_id with
      | TrafficBehavior.RED =>
        if dist_to_pos < OBJECTIVE_OK_DIST * 1.05 + stop_dist +
            max (width / 2 - OBJECTIVE_OK_DIST) 0 then 0 else desired_speed
      | TrafficBehavior.ORANGE =>
        if dist_to_pos < OBJECTIVE_OK_DIST * 1.05 + stop_dist +
            max (width / 2 - OBJECTIVE_OK_DIST) 0 then 0 else desired_speed
      | TrafficBehavior.STOP =>
        if dist_to_pos < OBJECTIVE_OK_DIST * 0.95 + stop_dist then 0
        else desired_speed
      | TrafficBehavior.GREEN => desired_speed
    | TraverseKind.Turn _ => desired_speed
  else desired_speed

/-- One iteration of the collision-avoidance loop of `calc_decision`
(systems.rs lines 203-255), folding one neighbor into the running minimum
front distance. -/
def neighborStep (ctx : DecisionCtx) (min_front_dist : ℚ)
    (n : PhysicsObjData) : ℚ :=
  if distance2 n.pos ctx.position < 1 / 100000 then min_front_dist
  else
    let towards_vec := vsub n.pos ctx.position
    let dist := n.dist
    let towards_dir := smul (1 / dist) towards_vec
    let dir_dot := dot towards_dir ctx.direction
    let tow_nor_dot := |dot towards_vec (normalOf ctx.direction)|
    let is_vehicle := n.isVehicle = true
    let his_direction := n.dir
    let on_lane := ctx.trav.is_lane = true
    if (dir_dot > 0.7 ∧ (¬ is_vehicle ∨ dot his_direction ctx.direction > 0)) ∧
        (¬ on_lane ∨ tow_nor_dot < 4) then
      let dist_to_obj := dist - ctx.width / 2 - n.radius
      let dist_to_obj := if ¬ is_vehicle then dist_to_obj - 1 else dist_to_obj
      min min_front_dist dist_to_obj
    else if dir_dot < 0 ∨ ¬ is_vehicle then min_front_dist
    else
      match n.interDist with
      | some (my_dist, his_dist) =>
        if my_dist - min ctx.speed 2.5 < his_dist - min n.speed 2.5 then
          min_front_dist
        else min min_front_dist (dist - ctx.width / 2)
      | none => min_front_dist

/-- Shallow embedding of `calc_decision` (systems.rs lines 168-305):
cooldown decrement, early returns on a missing target point or a
degenerate direction, the collision-avoidance fold, the randomized
deadlock-breaking wait, and the desired-speed caps. -/
def calc_decision (v : VehicleState) (ctx : DecisionCtx) : VehicleState :=
  if v.waitTime > 0 then { v with waitTime := v.waitTime - ctx.delta }
  else
    match ctx.objective with
    | none => v
    | some _ =>
      match ctx.dirDist with
      | none => v
      | some (dir_to_pos, dist_to_pos) =>
        let is_terminal := false
        let stop_dist := stopDistOf ctx.speed ctx.deceleration
        let min_front_dist := ctx.neighbors.foldl (neighborStep ctx) 50
        if |ctx.speed| < 0.2 ∧ min_front_dist < 1.5 then
          { v with waitTime := ctx.randDraw * 0.5 }
        else
          let ds := ctx.cruisingSpeed
          let ds := lightCapStep ctx.remainingPoints ctx.trav ctx.getBehavior
            dist_to_pos stop_dist ctx.width ds
          let ds := if is_terminal ∧ dist_to_pos < 1 + stop_dist then 0 else ds
          let ds := if min_front_dist < 0.5 + stop_dist then 0 else ds
          let ds := if dot dir_to_pos ctx.direction < 0.8 then min ds 6 else ds
          { waitTime := v.waitTime, desiredSpeed := ds, desiredDir := dir_to_pos }

/-- Concrete decision context for the crossing-path and deadlock analyses:
agent at the origin facing +x on a lane, width 2, not moving. -/
def exCtx : DecisionCtx :=
  { delta := 0.1, speed := 0, position := (0, 0), direction := (1, 0),
    width := 2, deceleration := 1, cruisingSpeed := 15,
    objective := some (10, 0), dirDist := some ((1, 0), 10),
    remainingPoints := 2, trav := TraverseKind.Lane 0,
    getBehavior := fun _ => TrafficBehavior.GREEN, neighbors := [],
    randDraw := 0 }

/-- Crossing-path neighbor whose adjusted distance ties the agent's
(both 2). -/
def exNeighborTie : PhysicsObjData :=
  { pos := (3, 4), dist := 5, dir := (0, 1), radius := 1, speed := 0,
    isVehicle := true, interDist := some (2, 2) }

/-- Crossing-path neighbor that the agent strictly beats to the crossing
point (agent distance 1, neighbor distance 3). -/
def exNeighborBeaten : PhysicsObjData :=
  { pos := (3, 4), dist := 5, dir := (0, 1), radius := 1, speed := 0,
    isVehicle := true, interDist := some (1, 3) }

/-- Leading vehicle 1 unit ahead in the front cone. -/
def exNeighborFront : PhysicsObjData :=
  { pos := (1, 0), dist := 1, dir := (1, 0), radius := 0.3, speed := 0,
    isVehicle := true, interDist := none }

/-- Nearly stopped vehicle state before the deadlock-breaking branch. -/
def exVehState : VehicleState :=
  { waitTime := 0, desiredSpeed := 7, desiredDir := (1, 0) }

/-- Concrete three-lane setup reused across witnesses: every lane kind needs
a light, lane `l` belongs to road `l`, road `r` has the single incoming lane
`r`, and road `r` points in direction `(1 + r, 0)`. -/
def exLanes : Lanes := fun l =>
  { parent := l, needsLight := true, control := TrafficControl.Always,
    interNodePos := fun _ => (0, 0), orientationVec := (1, 0) }

/-- Concrete road store for the witnesses. -/
def exRoads : Roads := fun r => { incomingTo := [r], dirFrom := ((1 + r : ℚ), 0) }

/-- Concrete two-road intersection. -/
def exInter2 : Intersection := { id := 0, pos := (0, 0), roads := [0, 1] }

/-- Concrete three-road intersection. -/
def exInter3 : Intersection := { id := 0, pos := (0, 0), roads := [0, 1, 2] }

/-- Concrete four-road intersection. -/
def exInter4 : Intersection := { id := 7, pos := (0, 0), roads := [0, 1, 2, 3] }

/-! ## Pointwise characterization of the control writers -/

theorem setRow_char (ls : Lanes) (grp : List LaneID) (c : TrafficControl)
    (l : LaneID) :
    setRow ls grp c l = if l ∈ grp then { ls l with control := c } else ls l := by
  induction grp generalizing ls with
  | nil => simp [setRow]
  | cons x xs ih =>
    have hstep : setRow ls (x :: xs) c = setRow (setControl ls x c) xs c := rfl
    rw [hstep, ih]
    by_cases hx : l = x
    · subst hx
      by_cases hm : l ∈ xs <;> simp [hm, setControl]
    · by_cases hm : l ∈ xs <;> simp [hm, hx, setControl]

theorem setAll_char (ls : Lanes) (groups : List (List LaneID))
    (c : TrafficControl) (l : LaneID) :
    setAll ls groups c l =
      if l ∈ groups.flatten then { ls l with control := c } else ls l := by
  induction groups generalizing ls with
  | nil => simp [setAll]
  | cons g rest ih =>
    have hstep : setAll ls (g :: rest) c = setAll (setRow ls g c) rest c := rfl
    rw [hstep, ih, setRow_char]
    by_cases hm : l ∈ rest.flatten <;> by_cases hg : l ∈ g <;>
      simp [List.flatten_cons, hm, hg]

theorem applyLightsFrom_char (cs ol off i : ℕ) (groups : List (List LaneID))
    (ls : Lanes) (l : LaneID) :
    applyLightsFrom cs ol off i groups ls l =
      { ls l with control := lightsCtrl cs ol off l i groups ((ls l).control) } := by
  induction groups generalizing i ls with
  | nil => simp [applyLightsFrom, lightsCtrl]
  | cons g rest ih =>
    have hstep : applyLightsFrom cs ol off i (g :: rest) ls =
        applyLightsFrom cs ol off (i + 1) rest (setRow ls g (lightAt cs ol off i)) :=
      rfl
    rw [hstep, ih, setRow_char]
    by_cases hg : l ∈ g <;> simp [lightsCtrl, hg]

theorem not_mem_flatten_of_forall (groups : List (List LaneID)) (l : LaneID)
    (h : ∀ j, j < groups.length → l ∉ groups.getD j []) :
    l ∉ groups.flatten := by
  intro hmem
  rw [List.mem_flatten] at hmem
  obtain ⟨s, hs, hls⟩ := hmem
  obtain ⟨j, hj, hget⟩ := List.mem_iff_getElem.mp hs
  refine h j hj ?_
  rw [List.getD_eq_getElem _ _ hj, hget]
  exact hls

theorem lightsCtrl_not_mem (cs ol off : ℕ) (l : LaneID) (i : ℕ)
    (groups : List (List LaneID)) (d : TrafficControl)
    (h : l ∉ groups.flatten) : lightsCtrl cs ol off l i groups d = d := by
  induction groups generalizing i d with
  | nil => rfl
  | cons g rest ih =>
    rw [List.flatten_cons] at h
    have hg : l ∉ g := fun hx => h (List.mem_append.mpr (Or.inl hx))
    have hr : l ∉ rest.flatten := fun hx => h (List.mem_append.mpr (Or.inr hx))
    show lightsCtrl cs ol off l (i + 1) rest (if l ∈ g then _ else d) = d
    rw [if_neg hg]
    exact ih (i + 1) d hr

theorem lightsCtrl_mem_unique (cs ol off : ℕ) (l : LaneID) (i : ℕ)
    (groups : List (List LaneID)) (d : TrafficControl) (k : ℕ)
    (hk : k < groups.length) (hl : l ∈ groups.getD k [])
    (huniq : ∀ j, j < groups.length → j ≠ k → l ∉ groups.getD j []) :
    lightsCtrl cs ol off l i groups d = lightAt cs ol off (i + k) := by
  induction groups generalizing i d k with
  | nil => simp at hk
  | cons g rest ih =>
    cases k with
    | zero =>
      have hg : l ∈ g := by simpa using hl
      show lightsCtrl cs ol off l (i + 1) rest (if l ∈ g then _ else d) = _
      rw [if_pos hg]
      have hrest : l ∉ rest.flatten := by
        refine not_mem_flatten_of_forall rest l fun j hj => ?_
        have := huniq (j + 1) (by simpa using Nat.succ_lt_succ hj) (by omega)
        simpa using this
      rw [lightsCtrl_not_mem cs ol off l (i + 1) rest _ hrest, Nat.add_zero]
    | succ k' =>
      have hg : l ∉ g := by
        have := huniq 0 (by simp) (by omega)
        simpa using this
      show lightsCtrl cs ol off l (i + 1) rest (if l ∈ g then _ else d) = _
      rw [if_neg hg]
      have hres : lightsCtrl cs ol off l (i + 1) rest d =
          lightAt cs ol off ((i + 1) + k') := by
        refine ih (i + 1) d k' (by simpa using Nat.lt_of_succ_lt_succ hk)
          (by simpa using hl) fun j hj hne => ?_
        have := huniq (j + 1) (by simpa using Nat.succ_lt_succ hj) (by omega)
        simpa using this
      rw [hres]
      have : (i + 1) + k' = i + (k' + 1) := by omega
      rw [this]

theorem lightsCtrl_d_irrel (cs ol off : ℕ) (l : LaneID) (i : ℕ)
    (groups : List (List LaneID)) (d d' : TrafficControl)
    (h : l ∈ groups.flatten) :
    lightsCtrl cs ol off l i groups d = lightsCtrl cs ol off l i groups d' := by
  induction groups generalizing i d d' with
  | nil => simp at h
  | cons g rest ih =>
    rw [List.flatten_cons, List.mem_append] at h
    by_cases hg : l ∈ g
    · show lightsCtrl cs ol off l (i + 1) rest (if l ∈ g then _ else d) =
        lightsCtrl cs ol off l (i + 1) rest (if l ∈ g then _ else d')
      rw [if_pos hg, if_pos hg]
    · have hr : l ∈ rest.flatten := h.resolve_left hg
      show lightsCtrl cs ol off l (i + 1) rest (if l ∈ g then _ else d) =
        lightsCtrl cs ol off l (i + 1) rest (if l ∈ g then _ else d')
      rw [if_neg hg, if_neg hg]
      exact ih (i + 1) d d' hr

/-! ## Field preservation and branch congruence -/

theorem setAll_parent (ls : Lanes) (groups : List (List LaneID))
    (c : TrafficControl) (l : LaneID) :
    (setAll ls groups c l).parent = (ls l).parent := by
  rw [setAll_char]; split <;> rfl

theorem setAll_needsLight (ls : Lanes) (groups : List (List LaneID))
    (c : TrafficControl) (l : LaneID) :
    (setAll ls groups c l).needsLight = (ls l).needsLight := by
  rw [setAll_char]; split <;> rfl

theorem applyLightsFrom_parent (cs ol off i : ℕ) (groups : List (List LaneID))
    (ls : Lanes) (l : LaneID) :
    (applyLightsFrom cs ol off i groups ls l).parent = (ls l).parent := by
  rw [applyLightsFrom_char]

theorem applyLightsFrom_needsLight (cs ol off i : ℕ)
    (groups : List (List LaneID)) (ls : Lanes) (l : LaneID) :
    (applyLightsFrom cs ol off i groups ls l).needsLight = (ls l).needsLight := by
  rw [applyLightsFrom_char]

theorem inRoadLanes_congr (inter : Intersection) (roads : Roads)
    (lanesA lanesB : Lanes)
    (h : ∀ l, (lanesA l).needsLight = (lanesB l).needsLight) :
    inRoadLanes inter lanesA roads = inRoadLanes inter lanesB roads := by
  have hfun : (fun l => (lanesA l).needsLight) = fun l => (lanesB l).needsLight :=
    funext h
  unfold inRoadLanes
  rw [hfun]

theorem angOf_congr (angFn : Vec2 → Vec2 → ℚ) (roads : Roads)
    (lanesA lanesB : Lanes) (groups : List (List LaneID))
    (h : ∀ l, (lanesA l).parent = (lanesB l).parent) (i : ℕ) :
    angOf angFn roads lanesA groups i = angOf angFn roads lanesB groups i := by
  unfold angOf
  rw [h, h]

theorem angOf_nonneg (angFn : Vec2 → Vec2 → ℚ) (roads : Roads) (lanes : Lanes)
    (groups : List (List LaneID)) (i : ℕ) :
    0 ≤ angOf angFn roads lanes groups i :=
  abs_nonneg _

/-! ## Behaviour of the perpendicular-road search -/

theorem perpRoad_isSome (A : ℕ → ℚ) (h : ∃ i, i < 3 ∧ 0 < A i) :
    (perpRoad A).isSome = true := by
  obtain ⟨i, hi, hpos⟩ := h
  unfold perpRoad perpStep
  simp only [List.foldl_cons, List.foldl_nil]
  split_ifs <;> simp_all
  interval_cases i <;> linarith

theorem perpRoad_argmax (A : ℕ → ℚ) (hnn : ∀ i, 0 ≤ A i) (k : ℕ) (hk : k < 3)
    (hmax : ∀ j, j < 3 → j ≠ k → A j < A k) :
    perpRoad A = some ((k + 2) % 3) := by
  have hApos : 0 < A k :=
    lt_of_le_of_lt (hnn ((k + 1) % 3)) (hmax _ (by omega) (by omega))
  interval_cases k
  · have h1 : ¬ A 1 > A 0 := not_lt.mpr (le_of_lt (hmax 1 (by omega) (by omega)))
    have h2 : ¬ A 2 > A 0 := not_lt.mpr (le_of_lt (hmax 2 (by omega) (by omega)))
    simp [perpRoad, perpStep, hApos, h1, h2]
  · by_cases c0 : A 0 > 0
    · have h1 : A 1 > A 0 := hmax 0 (by omega) (by omega)
      have h2 : ¬ A 2 > A 1 := not_lt.mpr (le_of_lt (hmax 2 (by omega) (by omega)))
      simp [perpRoad, perpStep, c0, h1, h2]
    · have h1 : A 1 > 0 := hApos
      have h2 : ¬ A 2 > A 1 := not_lt.mpr (le_of_lt (hmax 2 (by omega) (by omega)))
      simp [perpRoad, perpStep, c0, h1, h2]
  · by_cases c0 : A 0 > 0
    · by_cases c1 : A 1 > A 0
      · have h2 : A 2 > A 1 := hmax 1 (by omega) (by omega)
        simp [perpRoad, perpStep, c0, c1, h2]
      · have h2 : A 2 > A 0 := hmax 0 (by omega) (by omega)
        simp [perpRoad, perpStep, c0, c1, h2]
    · by_cases c1 : A 1 > 0
      · have h2 : A 2 > A 1 := hmax 1 (by omega) (by omega)
        simp [perpRoad, perpStep, c0, c1, h2]
      · have h2 : A 2 > 0 := hApos
        simp [perpRoad, perpStep, c0, c1, h2]

theorem perpRoad_lt (A : ℕ → ℚ) (p : ℕ) (h : perpRoad A = some p) : p < 3 := by
  unfold perpRoad perpStep at h
  simp only [List.foldl_cons, List.foldl_nil] at h
  split_ifs at h <;> simp_all <;> omega

theorem update_update (L : Lane) (c c' : TrafficControl) :
    ({ ({ L with control := c' } : Lane) with control := c } : Lane) =
      { L with control := c } := rfl

theorem eta_control (L : Lane) (c : TrafficControl) (h : L.control = c) :
    ({ L with control := c } : Lane) = L := by
  rw [← h]

theorem mem_flatten_of_getD (groups : List (List LaneID)) (j : ℕ)
    (hj : j < groups.length) (l : LaneID) (hl : l ∈ groups.getD j []) :
    l ∈ groups.flatten := by
  rw [List.getD_eq_getElem _ _ hj] at hl
  exact List.mem_flatten.mpr ⟨_, List.getElem_mem hj, hl⟩

/-! ## Claim theorems for the light policy -/

/-- Claim C8: after `LightPolicy::apply`, if the policy is NoLights (any
topology) or Smart with at most 2 relevant road-groups, every relevant
incoming lane has the unrestricted (Always) control — no lane has a light or
a stop-sign; if the policy is StopSigns, every relevant incoming lane has
the stop-sign control. -/
theorem claim8 (pol : LightPolicy) (angFn : Vec2 → Vec2 → ℚ)
    (genRange : ℕ → ℕ → ℕ) (inter : Intersection) (lanes : Lanes)
    (roads : Roads)
    (h : pol = LightPolicy.NoLights ∨
      (pol = LightPolicy.Smart ∧ (inRoadLanes inter lanes roads).length ≤ 2) ∨
      pol = LightPolicy.StopSigns) :
    ∃ lanes', pol.apply angFn genRange inter lanes roads = some lanes' ∧
      ∀ l ∈ (inRoadLanes inter lanes roads).flatten,
        (lanes' l).control =
          if pol = LightPolicy.StopSigns then TrafficControl.StopSign
          else TrafficControl.Always := by
  rcases h with h | ⟨h, hlen⟩ | h
  · subst h
    refine ⟨_, rfl, fun l hl => ?_⟩
    simp [setAll_char, hl]
  · subst h
    refine ⟨setAll lanes (inRoadLanes inter lanes roads) TrafficControl.Always,
      ?_, fun l hl => ?_⟩
    · simp only [LightPolicy.apply]
      rw [if_pos hlen]
    · simp [setAll_char, hl]
  · subst h
    refine ⟨_, rfl, fun l hl => ?_⟩
    simp [setAll_char, hl]

/-- Claim C8 witness: at a concrete two-road intersection, the StopSigns
policy stop-signs every relevant lane and the Smart policy (two road-groups)
leaves every relevant lane unrestricted. -/
theorem claim8_witness :
    (∃ lanes', LightPolicy.apply LightPolicy.StopSigns (fun _ _ => 0)
        (fun _ _ => 0) exInter2 exLanes exRoads = some lanes' ∧
      (lanes' 0).control = TrafficControl.StopSign) ∧
    (∃ lanes', LightPolicy.apply LightPolicy.Smart (fun _ _ => 0)
        (fun _ _ => 0) exInter2 exLanes exRoads = some lanes' ∧
      (lanes' 0).control = TrafficControl.Always) := by
  constructor
  · obtain ⟨lanes', h1, h2⟩ := claim8 LightPolicy.StopSigns (fun _ _ => 0)
      (fun _ _ => 0) exInter2 exLanes exRoads (Or.inr (Or.inr rfl))
    refine ⟨lanes', h1, ?_⟩
    have := h2 0 (by decide)
    simpa using this
  · obtain ⟨lanes', h1, h2⟩ := claim8 LightPolicy.Smart (fun _ _ => 0)
      (fun _ _ => 0) exInter2 exLanes exRoads (Or.inr (Or.inl ⟨rfl, by decide⟩))
    refine ⟨lanes', h1, ?_⟩
    have := h2 0 (by decide)
    simpa using this

/-- Claim C1 (amended): under the Smart policy with at least 4 relevant
road-groups or under the Lights policy, `LightPolicy::apply` assigns every
lane of every relevant road-group a cyclic light with green length 10,
orange length 4 and full cycle 14, and road-groups alternate (by enumeration
index parity) between two phase offsets that differ by exactly one full
cycle — hence are congruent modulo the cycle, not half a cycle apart — the
base offset being drawn deterministically from the generator seeded with the
intersection's identifier. -/
theorem claim1 (pol : LightPolicy) (angFn : Vec2 → Vec2 → ℚ)
    (genRange : ℕ → ℕ → ℕ) (inter : Intersection) (lanes : Lanes)
    (roads : Roads)
    (hpol : pol = LightPolicy.Lights ∨
      (pol = LightPolicy.Smart ∧ 4 ≤ (inRoadLanes inter lanes roads).length))
    (hdisj : ∀ i, i < (inRoadLanes inter lanes roads).length →
      ∀ j, j < (inRoadLanes inter lanes roads).length →
        ∀ l ∈ (inRoadLanes inter lanes roads).getD i [], i ≠ j →
          l ∉ (inRoadLanes inter lanes roads).getD j []) :
    ∃ lanes', pol.apply angFn genRange inter lanes roads = some lanes' ∧
      (∀ i, i < (inRoadLanes inter lanes roads).length →
        ∀ l ∈ (inRoadLanes inter lanes roads).getD i [],
          (lanes' l).control = TrafficControl.Light
            (TrafficLightSchedule.from_basic 10 4 14
              (if i % 2 = 0 then 14 + genRange inter.id 10
               else genRange inter.id 10))) ∧
      (14 + genRange inter.id 10) % 14 = genRange inter.id 10 % 14 := by
  set groups := inRoadLanes inter lanes roads with hg
  have hmain : ∀ i, i < groups.length → ∀ l ∈ groups.getD i [],
      (applyLights genRange inter.id groups
          (setAll lanes groups TrafficControl.Always) l).control =
        TrafficControl.Light (TrafficLightSchedule.from_basic 10 4 14
          (if i % 2 = 0 then 14 + genRange inter.id 10
           else genRange inter.id 10)) := by
    intro i hi l hl
    have hchar := applyLightsFrom_char 10 4 (genRange inter.id 10) 0 groups
      (setAll lanes groups TrafficControl.Always) l
    have hctrl := lightsCtrl_mem_unique 10 4 (genRange inter.id 10) l 0 groups
      ((setAll lanes groups TrafficControl.Always l).control) i hi hl
      (fun j hj hne => hdisj i hi j hj l hl hne.symm)
    have : (applyLights genRange inter.id groups
        (setAll lanes groups TrafficControl.Always) l).control =
        lightAt 10 4 (genRange inter.id 10) (0 + i) := by
      show (applyLightsFrom 10 4 (genRange inter.id 10) 0 groups
        (setAll lanes groups TrafficControl.Always) l).control = _
      rw [hchar, ← hctrl]
    rw [this]
    simp [lightAt, TrafficLightSchedule.from_basic]
  rcases hpol with h | ⟨h, hlen⟩
  · subst h
    exact ⟨_, rfl, hmain, by omega⟩
  · subst h
    have h2 : ¬ groups.length ≤ 2 := by omega
    have h3 : ¬ groups.length = 3 := by omega
    refine ⟨applyLights genRange inter.id groups
      (setAll lanes groups TrafficControl.Always), ?_, hmain, by omega⟩
    simp only [LightPolicy.apply]
    rw [if_neg h2, if_neg h3]

/-- Claim C1 counterexample: at a concrete two-group intersection under the
Lights policy, the schedules produced carry green length 10, orange length 4
and cycle length 14 as claimed, but the two alternating phase offsets are 17
and 3: they differ by the full cycle 14, and 17 is not congruent to
3 + 14/2 modulo the cycle, so the claimed 180-degree (half-cycle) phase
alternation is false. -/
theorem claim1_counterexample :
    (LightPolicy.apply LightPolicy.Lights (fun _ _ => 0) (fun _ _ => 3)
        exInter2 exLanes exRoads).map (fun ls => ((ls 0).control, (ls 1).control)) =
      some (TrafficControl.Light ⟨10, 4, 14, 17⟩,
        TrafficControl.Light ⟨10, 4, 14, 3⟩) ∧
    17 - 3 = 14 ∧ ¬ (17 % 14 = (3 + 14 / 2) % 14) := by
  refine ⟨?_, by norm_num, by decide⟩
  decide

/-- Claim C1 witness: the amended theorem applied to a concrete four-road
intersection under the Smart policy, with seed 7 and a concrete generator
returning 3; the lane of the second road-group receives the light with the
un-shifted offset 3 and the lane of the first road-group the offset
14 + 3 = 17. -/
theorem claim1_witness :
    ∃ lanes', LightPolicy.apply LightPolicy.Smart (fun _ _ => 0) (fun _ _ => 3)
        exInter4 exLanes exRoads = some lanes' ∧
      (lanes' 0).control = TrafficControl.Light
        (TrafficLightSchedule.from_basic 10 4 14 17) ∧
      (lanes' 1).control = TrafficControl.Light
        (TrafficLightSchedule.from_basic 10 4 14 3) := by
  obtain ⟨lanes', h1, h2, h3⟩ := claim1 LightPolicy.Smart (fun _ _ => 0)
    (fun _ _ => 3) exInter4 exLanes exRoads (Or.inr ⟨rfl, by decide⟩) (by decide)
  refine ⟨lanes', h1, ?_, ?_⟩
  · have := h2 0 (by decide) 0 (by decide)
    simpa using this
  · have := h2 1 (by decide) 1 (by decide)
    simpa using this

/-- Claim C3: for every intersection with exactly 3 relevant road-groups
under the Smart policy — with pairwise-disjoint road-groups and the largest
cyclic angular difference attained strictly and uniquely at pair index `k` —
`LightPolicy::apply` demotes exactly the road-group `(k+2) % 3`, the group
that is not part of the cyclically-adjacent pair with the largest absolute
angular difference, to the stop-sign regime, and every other relevant lane
ends with the unrestricted (Always) control. -/
theorem claim3 (angFn : Vec2 → Vec2 → ℚ) (genRange : ℕ → ℕ → ℕ)
    (inter : Intersection) (lanes : Lanes) (roads : Roads)
    (hlen : (inRoadLanes inter lanes roads).length = 3)
    (hdisj : ∀ i, i < 3 → ∀ j, j < 3 →
      ∀ l ∈ (inRoadLanes inter lanes roads).getD i [], i ≠ j →
        l ∉ (inRoadLanes inter lanes roads).getD j [])
    (k : ℕ) (hk : k < 3)
    (hmax : ∀ j, j < 3 → j ≠ k →
      angOf angFn roads lanes (inRoadLanes inter lanes roads) j <
        angOf angFn roads lanes (inRoadLanes inter lanes roads) k) :
    ∃ lanes', LightPolicy.apply LightPolicy.Smart angFn genRange inter lanes
        roads = some lanes' ∧
      (∀ l ∈ (inRoadLanes inter lanes roads).getD ((k + 2) % 3) [],
        (lanes' l).control = TrafficControl.StopSign) ∧
      (∀ j, j < 3 → j ≠ (k + 2) % 3 →
        ∀ l ∈ (inRoadLanes inter lanes roads).getD j [],
          (lanes' l).control = TrafficControl.Always) := by
  set groups := inRoadLanes inter lanes roads with hg
  set lanes1 := setAll lanes groups TrafficControl.Always with hl1
  have hpar : ∀ l, (lanes1 l).parent = (lanes l).parent := fun l =>
    setAll_parent lanes groups TrafficControl.Always l
  have hAeq : angOf angFn roads lanes1 groups = angOf angFn roads lanes groups :=
    funext fun i => angOf_congr angFn roads lanes1 lanes groups hpar i
  have hperp : perpRoad (angOf angFn roads lanes1 groups) = some ((k + 2) % 3) := by
    rw [hAeq]
    exact perpRoad_argmax _ (angOf_nonneg angFn roads lanes groups) k hk hmax
  have h2 : ¬ groups.length ≤ 2 := by omega
  refine ⟨setAll lanes1 [groups.getD ((k + 2) % 3) []] TrafficControl.StopSign,
    ?_, ?_, ?_⟩
  · simp only [LightPolicy.apply]
    rw [if_neg h2, if_pos hlen, hperp]
  · intro l hl
    rw [setAll_char]
    have : l ∈ ([groups.getD ((k + 2) % 3) []] : List (List LaneID)).flatten := by
      simpa using hl
    rw [if_pos this]
  · intro j hj hne l hl
    have hnp : l ∉ groups.getD ((k + 2) % 3) [] :=
      hdisj j (by omega) ((k + 2) % 3) (by omega) l hl hne
    have hnotin : l ∉ ([groups.getD ((k + 2) % 3) []] : List (List LaneID)).flatten := by
      simpa using hnp
    rw [setAll_char, if_neg hnotin, hl1, setAll_char,
      if_pos (mem_flatten_of_getD groups j (by omega) l hl)]

/-- Claim C3 witness: a concrete three-road intersection whose middle cyclic
pair has the strictly largest angle; the remaining road-group (index 0) is
stop-signed and the others stay unrestricted. -/
theorem claim3_witness :
    ∃ lanes', LightPolicy.apply LightPolicy.Smart (fun u v => u.1 * v.1)
        (fun _ _ => 0) exInter3 exLanes exRoads = some lanes' ∧
      (lanes' 0).control = TrafficControl.StopSign ∧
      (lanes' 1).control = TrafficControl.Always := by
  have hg : inRoadLanes exInter3 exLanes exRoads = [[0], [1], [2]] := by decide
  have hmax : ∀ j, j < 3 → j ≠ 1 →
      angOf (fun u v : Vec2 => u.1 * v.1) exRoads exLanes
        (inRoadLanes exInter3 exLanes exRoads) j <
      angOf (fun u v : Vec2 => u.1 * v.1) exRoads exLanes
        (inRoadLanes exInter3 exLanes exRoads) 1 := by
    rw [hg]
    intro j hj hne
    interval_cases j
    · norm_num [angOf, exRoads, exLanes]
    · exact absurd rfl hne
    · norm_num [angOf, exRoads, exLanes]
  obtain ⟨lanes', h1, h2, h3⟩ := claim3 (fun u v => u.1 * v.1) (fun _ _ => 0)
    exInter3 exLanes exRoads (by decide) (by decide) 1 (by norm_num) hmax
  refine ⟨lanes', h1, ?_, ?_⟩
  · have := h2 0 (by decide)
    simpa using this
  · have := h3 1 (by norm_num) (by decide) 1 (by decide)
    simpa using this

/-- Claim C7: `LightPolicy::apply` is total — for every policy and
intersection such that, in the Smart-with-3-road-groups case, at least one
cyclically-adjacent pair of road directions has a strictly positive absolute
angular difference, the function returns a result (the embedded counterpart
of "never panics": the `perp_road.unwrap()` succeeds); moreover every
relevant road-group is nonempty (a road with zero relevant lanes has been
filtered out). -/
theorem claim7 (pol : LightPolicy) (angFn : Vec2 → Vec2 → ℚ)
    (genRange : ℕ → ℕ → ℕ) (inter : Intersection) (lanes : Lanes)
    (roads : Roads)
    (hnd : pol = LightPolicy.Smart → (inRoadLanes inter lanes roads).length = 3 →
      ∃ i, i < 3 ∧ 0 < angOf angFn roads lanes (inRoadLanes inter lanes roads) i) :
    (pol.apply angFn genRange inter lanes roads).isSome = true ∧
    ∀ g ∈ inRoadLanes inter lanes roads, g ≠ [] := by
  constructor
  · cases pol with
    | NoLights => rfl
    | StopSigns => rfl
    | Lights => rfl
    | Smart =>
      by_cases h2 : (inRoadLanes inter lanes roads).length ≤ 2
      · simp only [LightPolicy.apply]
        rw [if_pos h2]
        rfl
      · by_cases h3 : (inRoadLanes inter lanes roads).length = 3
        · obtain ⟨i, hi, hpos⟩ := hnd rfl h3
          have hpar : ∀ l, (setAll lanes (inRoadLanes inter lanes roads)
              TrafficControl.Always l).parent = (lanes l).parent := fun l =>
            setAll_parent lanes (inRoadLanes inter lanes roads)
              TrafficControl.Always l
          have hAeq : angOf angFn roads
              (setAll lanes (inRoadLanes inter lanes roads) TrafficControl.Always)
              (inRoadLanes inter lanes roads) =
              angOf angFn roads lanes (inRoadLanes inter lanes roads) :=
            funext fun j => angOf_congr angFn roads _ lanes
              (inRoadLanes inter lanes roads) hpar j
          have hsome := perpRoad_isSome
            (angOf angFn roads lanes (inRoadLanes inter lanes roads)) ⟨i, hi, hpos⟩
          obtain ⟨p, hp⟩ := Option.isSome_iff_exists.mp hsome
          simp only [LightPolicy.apply]
          rw [if_neg h2, if_pos h3, hAeq, hp]
          rfl
        · simp only [LightPolicy.apply]
          rw [if_neg h2, if_neg h3]
          rfl
  · intro g hgm
    unfold inRoadLanes at hgm
    have hne := (List.mem_filter.mp hgm).2
    intro hnil
    rw [hnil] at hne
    simp at hne

/-- Claim C7 witness: the totality theorem applied to the concrete
three-road intersection; one pair has angle 3 > 0, so the Smart policy
produces a result. -/
theorem claim7_witness :
    (LightPolicy.apply LightPolicy.Smart (fun u v => u.1 + v.1) (fun _ _ => 0)
        exInter3 exLanes exRoads).isSome = true := by
  have hg : inRoadLanes exInter3 exLanes exRoads = [[0], [1], [2]] := by decide
  have hang : 0 < angOf (fun u v : Vec2 => u.1 + v.1) exRoads exLanes
      (inRoadLanes exInter3 exLanes exRoads) 0 := by
    rw [hg]
    norm_num [angOf, exRoads, exLanes]
  have h := claim7 LightPolicy.Smart (fun u v => u.1 + v.1) (fun _ _ => 0)
    exInter3 exLanes exRoads (fun _ _ => ⟨0, by norm_num, hang⟩)
  exact h.1

/-! ## Helpers for control-independence and idempotence -/

theorem setAll_control_mem (ls : Lanes) (G : List (List LaneID))
    (c : TrafficControl) (l : LaneID) (h : l ∈ G.flatten) :
    (setAll ls G c l).control = c := by
  rw [setAll_char, if_pos h]

theorem setAll_not_mem (ls : Lanes) (G : List (List LaneID))
    (c : TrafficControl) (l : LaneID) (h : l ∉ G.flatten) :
    setAll ls G c l = ls l := by
  rw [setAll_char, if_neg h]

theorem lightsFrom_control_congr (cs ol off i : ℕ) (G : List (List LaneID))
    (lsA lsB : Lanes) (l : LaneID)
    (h : (lsA l).control = (lsB l).control) :
    (applyLightsFrom cs ol off i G lsA l).control =
      (applyLightsFrom cs ol off i G lsB l).control := by
  rw [applyLightsFrom_char, applyLightsFrom_char]
  show lightsCtrl cs ol off l i G ((lsA l).control) =
    lightsCtrl cs ol off l i G ((lsB l).control)
  rw [h]

theorem apply_preserves (pol : LightPolicy) (angFn : Vec2 → Vec2 → ℚ)
    (genRange : ℕ → ℕ → ℕ) (inter : Intersection) (lanes : Lanes)
    (roads : Roads) (res : Lanes)
    (h : pol.apply angFn genRange inter lanes roads = some res) (l : LaneID) :
    (res l).parent = (lanes l).parent ∧
    (res l).needsLight = (lanes l).needsLight := by
  cases pol with
  | NoLights =>
    simp only [LightPolicy.apply] at h
    injection h with h
    subst h
    exact ⟨setAll_parent _ _ _ _, setAll_needsLight _ _ _ _⟩
  | StopSigns =>
    simp only [LightPolicy.apply] at h
    injection h with h
    subst h
    constructor
    · rw [setAll_parent, setAll_parent]
    · rw [setAll_needsLight, setAll_needsLight]
  | Lights =>
    simp only [LightPolicy.apply, applyLights] at h
    injection h with h
    subst h
    constructor
    · rw [applyLightsFrom_parent, setAll_parent]
    · rw [applyLightsFrom_needsLight, setAll_needsLight]
  | Smart =>
    simp only [LightPolicy.apply, applyLights] at h
    by_cases h2 : (inRoadLanes inter lanes roads).length ≤ 2
    · rw [if_pos h2] at h
      injection h with h
      subst h
      exact ⟨setAll_parent _ _ _ _, setAll_needsLight _ _ _ _⟩
    · rw [if_neg h2] at h
      by_cases h3 : (inRoadLanes inter lanes roads).length = 3
      · rw [if_pos h3] at h
        cases hperp : perpRoad (angOf angFn roads
            (setAll lanes (inRoadLanes inter lanes roads) TrafficControl.Always)
            (inRoadLanes inter lanes roads)) with
        | none => rw [hperp] at h; exact absurd h (by simp)
        | some p =>
          rw [hperp] at h
          injection h with h
          subst h
          constructor
          · rw [setAll_parent, setAll_parent]
          · rw [setAll_needsLight, setAll_needsLight]
      · rw [if_neg h3] at h
        injection h with h
        subst h
        constructor
        · rw [applyLightsFrom_parent, setAll_parent]
        · rw [applyLightsFrom_needsLight, setAll_needsLight]

/-- Claim C10: the lane controls produced by `LightPolicy::apply` on the
relevant incoming lanes depend only on the policy, the graph geometry and
the intersection identifier — never on the lanes' previous control values.
Two runs from lane stores that agree on parents and lane kinds produce
identical controls on every relevant lane (and panic together), and applying
the same policy twice equals applying it once. -/
theorem claim10 (pol : LightPolicy) (angFn : Vec2 → Vec2 → ℚ)
    (genRange : ℕ → ℕ → ℕ) (inter : Intersection) (roads : Roads)
    (lanesA lanesB : Lanes)
    (hagree : ∀ l, (lanesA l).parent = (lanesB l).parent ∧
      (lanesA l).needsLight = (lanesB l).needsLight) :
    (∀ resA, pol.apply angFn genRange inter lanesA roads = some resA →
      ∃ resB, pol.apply angFn genRange inter lanesB roads = some resB ∧
        ∀ l ∈ (inRoadLanes inter lanesA roads).flatten,
          (resA l).control = (resB l).control) ∧
    (pol.apply angFn genRange inter lanesA roads = none →
      pol.apply angFn genRange inter lanesB roads = none) ∧
    (∀ res, pol.apply angFn genRange inter lanesA roads = some res →
      pol.apply angFn genRange inter res roads = some res) := by
  have hgroups : inRoadLanes inter lanesB roads = inRoadLanes inter lanesA roads :=
    (inRoadLanes_congr inter roads lanesA lanesB fun l => (hagree l).2).symm
  have hparAB : ∀ l,
      (setAll lanesA (inRoadLanes inter lanesA roads) TrafficControl.Always l).parent =
      (setAll lanesB (inRoadLanes inter lanesA roads) TrafficControl.Always l).parent := by
    intro l
    rw [setAll_parent, setAll_parent, (hagree l).1]
  have hAngAB : angOf angFn roads
      (setAll lanesA (inRoadLanes inter lanesA roads) TrafficControl.Always)
      (inRoadLanes inter lanesA roads) =
      angOf angFn roads
      (setAll lanesB (inRoadLanes inter lanesA roads) TrafficControl.Always)
      (inRoadLanes inter lanesA roads) :=
    funext fun i => angOf_congr angFn roads _ _ _ hparAB i
  refine ⟨?_, ?_, ?_⟩
  · -- controls depend only on parents and kinds
    intro resA hA
    cases pol with
    | NoLights =>
      simp only [LightPolicy.apply] at hA
      injection hA with hA
      subst hA
      refine ⟨setAll lanesB (inRoadLanes inter lanesA roads)
        TrafficControl.Always, ?_, ?_⟩
      · simp only [LightPolicy.apply]
        rw [hgroups]
      · intro l hl
        rw [setAll_control_mem _ _ _ _ hl, setAll_control_mem _ _ _ _ hl]
    | StopSigns =>
      simp only [LightPolicy.apply] at hA
      injection hA with hA
      subst hA
      refine ⟨setAll (setAll lanesB (inRoadLanes inter lanesA roads)
          TrafficControl.Always) (inRoadLanes inter lanesA roads)
          TrafficControl.StopSign, ?_, ?_⟩
      · simp only [LightPolicy.apply]
        rw [hgroups]
      · intro l hl
        rw [setAll_control_mem _ _ _ _ hl, setAll_control_mem _ _ _ _ hl]
    | Lights =>
      simp only [LightPolicy.apply, applyLights] at hA
      injection hA with hA
      subst hA
      refine ⟨applyLightsFrom 10 4 (genRange inter.id 10) 0
        (inRoadLanes inter lanesA roads)
        (setAll lanesB (inRoadLanes inter lanesA roads)
          TrafficControl.Always), ?_, ?_⟩
      · simp only [LightPolicy.apply, applyLights]
        rw [hgroups]
      · intro l hl
        refine lightsFrom_control_congr 10 4 (genRange inter.id 10) 0
          (inRoadLanes inter lanesA roads) _ _ l ?_
        rw [setAll_control_mem _ _ _ _ hl, setAll_control_mem _ _ _ _ hl]
    | Smart =>
      simp only [LightPolicy.apply, applyLights] at hA
      by_cases h2 : (inRoadLanes inter lanesA roads).length ≤ 2
      · rw [if_pos h2] at hA
        injection hA with hA
        subst hA
        refine ⟨setAll lanesB (inRoadLanes inter lanesA roads)
          TrafficControl.Always, ?_, ?_⟩
        · simp only [LightPolicy.apply]
          rw [hgroups, if_pos h2]
        · intro l hl
          rw [setAll_control_mem _ _ _ _ hl, setAll_control_mem _ _ _ _ hl]
      · rw [if_neg h2] at hA
        by_cases h3 : (inRoadLanes inter lanesA roads).length = 3
        · rw [if_pos h3] at hA
          cases hperp : perpRoad (angOf angFn roads
              (setAll lanesA (inRoadLanes inter lanesA roads)
                TrafficControl.Always) (inRoadLanes inter lanesA roads)) with
          | none => rw [hperp] at hA; exact absurd hA (by simp)
          | some p =>
            rw [hperp] at hA
            injection hA with hA
            subst hA
            refine ⟨setAll (setAll lanesB (inRoadLanes inter lanesA roads)
                TrafficControl.Always)
              [(inRoadLanes inter lanesA roads).getD p []]
              TrafficControl.StopSign, ?_, ?_⟩
            · simp only [LightPolicy.apply]
              rw [hgroups, if_neg h2, if_pos h3, ← hAngAB, hperp]
            · intro l hl
              by_cases hp : l ∈ (inRoadLanes inter lanesA roads).getD p []
              · have hm1 : l ∈ ([(inRoadLanes inter lanesA roads).getD p []] :
                    List (List LaneID)).flatten := by simpa using hp
                rw [setAll_control_mem _ _ _ _ hm1,
                  setAll_control_mem _ _ _ _ hm1]
              · have hm1 : l ∉ ([(inRoadLanes inter lanesA roads).getD p []] :
                    List (List LaneID)).flatten := by simpa using hp
                rw [setAll_not_mem _ _ _ _ hm1, setAll_not_mem _ _ _ _ hm1,
                  setAll_control_mem _ _ _ _ hl, setAll_control_mem _ _ _ _ hl]
        · rw [if_neg h3] at hA
          injection hA with hA
          subst hA
          refine ⟨applyLightsFrom 10 4 (genRange inter.id 10) 0
            (inRoadLanes inter lanesA roads)
            (setAll lanesB (inRoadLanes inter lanesA roads)
              TrafficControl.Always), ?_, ?_⟩
          · simp only [LightPolicy.apply, applyLights]
            rw [hgroups, if_neg h2, if_neg h3]
          · intro l hl
            refine lightsFrom_control_congr 10 4 (genRange inter.id 10) 0
              (inRoadLanes inter lanesA roads) _ _ l ?_
            rw [setAll_control_mem _ _ _ _ hl, setAll_control_mem _ _ _ _ hl]
  · -- the runs panic together
    intro hA
    cases pol with
    | NoLights => simp [LightPolicy.apply] at hA
    | StopSigns => simp [LightPolicy.apply] at hA
    | Lights => simp [LightPolicy.apply] at hA
    | Smart =>
      simp only [LightPolicy.apply] at hA
      by_cases h2 : (inRoadLanes inter lanesA roads).length ≤ 2
      · rw [if_pos h2] at hA
        simp at hA
      · rw [if_neg h2] at hA
        by_cases h3 : (inRoadLanes inter lanesA roads).length = 3
        · rw [if_pos h3] at hA
          cases hperp : perpRoad (angOf angFn roads
              (setAll lanesA (inRoadLanes inter lanesA roads)
                TrafficControl.Always) (inRoadLanes inter lanesA roads)) with
          | none =>
            simp only [LightPolicy.apply]
            rw [hgroups, if_neg h2, if_pos h3, ← hAngAB, hperp]
          | some p => rw [hperp] at hA; simp at hA
        · rw [if_neg h3] at hA
          simp at hA
  · -- applying the policy twice equals applying it once
    intro res h
    have hpres := fun l =>
      apply_preserves pol angFn genRange inter lanesA roads res h l
    have hGres : inRoadLanes inter res roads = inRoadLanes inter lanesA roads :=
      inRoadLanes_congr inter roads res lanesA fun l => (hpres l).2
    have hparResA : ∀ l,
        (setAll res (inRoadLanes inter lanesA roads) TrafficControl.Always l).parent =
        (setAll lanesA (inRoadLanes inter lanesA roads) TrafficControl.Always l).parent := by
      intro l
      rw [setAll_parent, setAll_parent, (hpres l).1]
    have hAngRes : angOf angFn roads
        (setAll res (inRoadLanes inter lanesA roads) TrafficControl.Always)
        (inRoadLanes inter lanesA roads) =
        angOf angFn roads
        (setAll lanesA (inRoadLanes inter lanesA roads) TrafficControl.Always)
        (inRoadLanes inter lanesA roads) :=
      funext fun i => angOf_congr angFn roads _ _ _ hparResA i
    cases pol with
    | NoLights =>
      simp only [LightPolicy.apply] at h ⊢
      injection h with h
      rw [hGres]
      congr 1
      funext l
      by_cases hm : l ∈ (inRoadLanes inter lanesA roads).flatten
      · rw [setAll_char, if_pos hm]
        refine eta_control _ _ ?_
        rw [← h]
        exact setAll_control_mem _ _ _ _ hm
      · exact setAll_not_mem _ _ _ _ hm
    | StopSigns =>
      simp only [LightPolicy.apply] at h ⊢
      injection h with h
      rw [hGres]
      congr 1
      funext l
      by_cases hm : l ∈ (inRoadLanes inter lanesA roads).flatten
      · rw [setAll_char, if_pos hm, setAll_char, if_pos hm, update_update]
        refine eta_control _ _ ?_
        rw [← h]
        exact setAll_control_mem _ _ _ _ hm
      · rw [setAll_not_mem _ _ _ _ hm, setAll_not_mem _ _ _ _ hm]
    | Lights =>
      simp only [LightPolicy.apply, applyLights] at h ⊢
      injection h with h
      rw [hGres]
      congr 1
      funext l
      rw [applyLightsFrom_char]
      by_cases hm : l ∈ (inRoadLanes inter lanesA roads).flatten
      · have hSA : setAll res (inRoadLanes inter lanesA roads)
            TrafficControl.Always l = { res l with control := TrafficControl.Always } := by
          rw [setAll_char, if_pos hm]
        rw [hSA, update_update]
        refine eta_control _ _ ?_
        rw [← h, applyLightsFrom_char]
        show lightsCtrl 10 4 (genRange inter.id 10) l 0
            (inRoadLanes inter lanesA roads)
            ((setAll lanesA (inRoadLanes inter lanesA roads)
              TrafficControl.Always l).control) = _
        rw [setAll_control_mem _ _ _ _ hm]
      · rw [setAll_not_mem _ _ _ _ hm,
          lightsCtrl_not_mem 10 4 (genRange inter.id 10) l 0 _ _ hm]
    | Smart =>
      simp only [LightPolicy.apply, applyLights] at h ⊢
      by_cases h2 : (inRoadLanes inter lanesA roads).length ≤ 2
      · rw [if_pos h2] at h
        injection h with h
        rw [hGres, if_pos h2]
        congr 1
        funext l
        by_cases hm : l ∈ (inRoadLanes inter lanesA roads).flatten
        · rw [setAll_char, if_pos hm]
          refine eta_control _ _ ?_
          rw [← h]
          exact setAll_control_mem _ _ _ _ hm
        · exact setAll_not_mem _ _ _ _ hm
      · rw [if_neg h2] at h
        by_cases h3 : (inRoadLanes inter lanesA roads).length = 3
        · rw [if_pos h3] at h
          cases hperp : perpRoad (angOf angFn roads
              (setAll lanesA (inRoadLanes inter lanesA roads)
                TrafficControl.Always) (inRoadLanes inter lanesA roads)) with
          | none => rw [hperp] at h; exact absurd h (by simp)
          | some p =>
            rw [hperp] at h
            injection h with h
            have hp3 : p < 3 := perpRoad_lt _ p hperp
            have hpG : p < (inRoadLanes inter lanesA roads).length := by omega
            rw [hGres, if_neg h2, if_pos h3, hAngRes, hperp]
            show some (setAll (setAll res (inRoadLanes inter lanesA roads)
              TrafficControl.Always)
              [(inRoadLanes inter lanesA roads).getD p []]
              TrafficControl.StopSign) = some res
            congr 1
            funext l
            by_cases hpm : l ∈ (inRoadLanes inter lanesA roads).getD p []
            · have hm : l ∈ (inRoadLanes inter lanesA roads).flatten :=
                mem_flatten_of_getD _ p hpG l hpm
              have hm1 : l ∈ ([(inRoadLanes inter lanesA roads).getD p []] :
                  List (List LaneID)).flatten := by simpa using hpm
              rw [setAll_char, if_pos hm1, setAll_char, if_pos hm, update_update]
              refine eta_control _ _ ?_
              rw [← h]
              exact setAll_control_mem _ _ _ _ hm1
            · have hm1 : l ∉ ([(inRoadLanes inter lanesA roads).getD p []] :
                  List (List LaneID)).flatten := by simpa using hpm
              rw [setAll_not_mem _ _ _ _ hm1]
              by_cases hm : l ∈ (inRoadLanes inter lanesA roads).flatten
              · rw [setAll_char, if_pos hm]
                refine eta_control _ _ ?_
                rw [← h, setAll_not_mem _ _ _ _ hm1]
                exact setAll_control_mem _ _ _ _ hm
              · exact setAll_not_mem _ _ _ _ hm
        · rw [if_neg h3] at h
          injection h with h
          rw [hGres, if_neg h2, if_neg h3]
          congr 1
          funext l
          rw [applyLightsFrom_char]
          by_cases hm : l ∈ (inRoadLanes inter lanesA roads).flatten
          · have hSA : setAll res (inRoadLanes inter lanesA roads)
                TrafficControl.Always l = { res l with control := TrafficControl.Always } := by
              rw [setAll_char, if_pos hm]
            rw [hSA, update_update]
            refine eta_control _ _ ?_
            rw [← h, applyLightsFrom_char]
            show lightsCtrl 10 4 (genRange inter.id 10) l 0
                (inRoadLanes inter lanesA roads)
                ((setAll lanesA (inRoadLanes inter lanesA roads)
                  TrafficControl.Always l).control) = _
            rw [setAll_control_mem _ _ _ _ hm]
          · rw [setAll_not_mem _ _ _ _ hm,
              lightsCtrl_not_mem 10 4 (genRange inter.id 10) l 0 _ _ hm]

/-- Claim C10 witness: first and second application of the StopSigns policy
on the concrete two-road intersection produce the same lane store. -/
theorem claim10_witness :
    ∃ res, LightPolicy.apply LightPolicy.StopSigns (fun _ _ => 0) (fun _ _ => 0)
        exInter2 exLanes exRoads = some res ∧
      LightPolicy.apply LightPolicy.StopSigns (fun _ _ => 0) (fun _ _ => 0)
        exInter2 res exRoads = some res := by
  have h := claim10 LightPolicy.StopSigns (fun _ _ => 0) (fun _ _ => 0) exInter2
    exRoads exLanes exLanes (fun l => ⟨rfl, rfl⟩)
  refine ⟨_, rfl, h.2.2 _ rfl⟩

/-! ## Claim theorems for the vehicle system and turns -/

/-- Claim C9: per tick on the stable (non-slip) path, the integrated new
signed speed equals the old speed plus (desired speed - old speed) clamped
to the interval [-elapsed*deceleration, +elapsed*acceleration]; hence the
speed increases by at most acceleration*elapsed, decreases by at most
deceleration*elapsed, and never moves past the desired speed. -/
theorem claim9 (speed desired delta deceleration acceleration : ℚ)
    (hdelta : 0 ≤ delta) (hacc : 0 ≤ acceleration) (hdec : 0 ≤ deceleration) :
    integrateSpeed speed desired delta deceleration acceleration =
      speed + max (-(delta * deceleration))
        (min (delta * acceleration) (desired - speed)) ∧
    integrateSpeed speed desired delta deceleration acceleration - speed ≤
      delta * acceleration ∧
    speed - integrateSpeed speed desired delta deceleration acceleration ≤
      delta * deceleration ∧
    (speed ≤ desired →
      speed ≤ integrateSpeed speed desired delta deceleration acceleration ∧
      integrateSpeed speed desired delta deceleration acceleration ≤ desired) ∧
    (desired ≤ speed →
      desired ≤ integrateSpeed speed desired delta deceleration acceleration ∧
      integrateSpeed speed desired delta deceleration acceleration ≤ speed) := by
  have hdd : 0 ≤ delta * deceleration := mul_nonneg hdelta hdec
  have hda : 0 ≤ delta * acceleration := mul_nonneg hdelta hacc
  unfold integrateSpeed restrict
  split_ifs with h1 h2
  · rw [min_eq_right (by linarith), max_eq_left (by linarith)]
    refine ⟨rfl, by linarith, by linarith, fun h => ⟨by linarith, by linarith⟩,
      fun h => ⟨by linarith, by linarith⟩⟩
  · rw [min_eq_left (by linarith), max_eq_right (by linarith)]
    refine ⟨rfl, by linarith, by linarith, fun h => ⟨by linarith, by linarith⟩,
      fun h => ⟨by linarith, by linarith⟩⟩
  · rw [min_eq_right (by linarith), max_eq_right (by linarith)]
    refine ⟨rfl, by linarith, by linarith, fun h => ⟨by linarith, by linarith⟩,
      fun h => ⟨by linarith, by linarith⟩⟩

/-- Claim C9 witness: with delta 1, deceleration 3, acceleration 2,
starting speed 0 and desired speed 10, the speed rises by at most
delta*acceleration and stays between the old and desired speeds. -/
theorem claim9_witness :
    integrateSpeed 0 10 1 3 2 - 0 ≤ 1 * 2 ∧
    (0 ≤ integrateSpeed 0 10 1 3 2 ∧ integrateSpeed 0 10 1 3 2 ≤ 10) := by
  have h := claim9 0 10 1 3 2 (by norm_num) (by norm_num) (by norm_num)
  exact ⟨h.2.1, h.2.2.2.1 (by norm_num)⟩

/-- Claim C4: in `calc_decision`, when exactly one point remains on the
current traversable and it is a lane, evaluating the lane's control regime
at the current simulated time sets the desired speed to 0 if the regime is
RED or ORANGE and the distance to the target is below
1.05*OBJECTIVE_OK_DIST + stopping distance + max(half width -
OBJECTIVE_OK_DIST, 0), or the regime is STOP and the distance is below
0.95*OBJECTIVE_OK_DIST + stopping distance, where stopping distance =
speed^2/(2*deceleration) at the current speed; otherwise this step leaves
the desired speed unchanged. -/
theorem claim4 (getB : LaneID → TrafficBehavior) (l_id : LaneID)
    (dist_to_pos width desired_speed speed deceleration : ℚ)
    (hdec : 0 < deceleration) :
    (getB l_id = TrafficBehavior.RED ∨ getB l_id = TrafficBehavior.ORANGE →
      lightCapStep 1 (TraverseKind.Lane l_id) getB dist_to_pos
          (stopDistOf speed deceleration) width desired_speed =
        if dist_to_pos < OBJECTIVE_OK_DIST * 1.05 +
            stopDistOf speed deceleration +
            max (width / 2 - OBJECTIVE_OK_DIST) 0 then 0
        else desired_speed) ∧
    (getB l_id = TrafficBehavior.STOP →
      lightCapStep 1 (TraverseKind.Lane l_id) getB dist_to_pos
          (stopDistOf speed deceleration) width desired_speed =
        if dist_to_pos < OBJECTIVE_OK_DIST * 0.95 +
            stopDistOf speed deceleration then 0
        else desired_speed) ∧
    (getB l_id = TrafficBehavior.GREEN →
      lightCapStep 1 (TraverseKind.Lane l_id) getB dist_to_pos
          (stopDistOf speed deceleration) width desired_speed =
        desired_speed) ∧
    (∀ rp trav, rp ≠ 1 →
      lightCapStep rp trav getB dist_to_pos (stopDistOf speed deceleration)
        width desired_speed = desired_speed) ∧
    (∀ tid, lightCapStep 1 (TraverseKind.Turn tid) getB dist_to_pos
        (stopDistOf speed deceleration) width desired_speed =
      desired_speed) ∧
    stopDistOf speed deceleration = speed ^ 2 / (2 * deceleration) := by
  refine ⟨?_, ?_, ?_, ?_, ?_, ?_⟩
  · rintro (h | h) <;> simp [lightCapStep, h]
  · intro h
    simp [lightCapStep, h]
  · intro h
    simp [lightCapStep, h]
  · intro rp trav h
    simp [lightCapStep, h]
  · intro tid
    simp [lightCapStep]
  · have hne : deceleration ≠ 0 := ne_of_gt hdec
    unfold stopDistOf
    field_simp
    ring

/-- Claim C4 witness: a red light one unit ahead of a stopped agent of
width 2 forces the desired speed to 0. -/
theorem claim4_witness :
    (0:ℚ) < 2 ∧
    lightCapStep 1 (TraverseKind.Lane 0) (fun _ => TrafficBehavior.RED) 1
      (stopDistOf 0 2) 2 5 = 0 := by
  have h := (claim4 (fun _ => TrafficBehavior.RED) 0 1 2 5 0 2
    (by norm_num)).1 (Or.inl rfl)
  have hcond : (1:ℚ) < OBJECTIVE_OK_DIST * 1.05 + stopDistOf 0 2 +
      max ((2:ℚ) / 2 - OBJECTIVE_OK_DIST) 0 := by
    rw [max_eq_right (by norm_num [OBJECTIVE_OK_DIST])]
    norm_num [stopDistOf, OBJECTIVE_OK_DIST]
  refine ⟨by norm_num, ?_⟩
  rw [h, if_pos hcond]

/-- Claim C2 (amended): in `calc_decision`, for every vehicle neighbor
lying ahead (bearing-dot-facing at least 0) that is not handled by the
front-cone case and whose front-edge rays cross: if the agent's distance to
the crossing point minus its speed capped at 2.5 is strictly smaller than
the neighbor's (the agent arrives strictly earlier), the neighbor is
ignored; otherwise — including on an exact tie of the adjusted distances —
the neighbor's distance minus the agent's half-width is folded into the
minimum front distance (the agent yields). -/
theorem claim2 (ctx : DecisionCtx) (mfd : ℚ) (n : PhysicsObjData) (md hd : ℚ)
    (hfar : ¬ distance2 n.pos ctx.position < 1 / 100000)
    (hncone : ¬ ((dot (smul (1 / n.dist) (vsub n.pos ctx.position))
          ctx.direction > 0.7 ∧
        (¬ n.isVehicle = true ∨ dot n.dir ctx.direction > 0)) ∧
      (¬ ctx.trav.is_lane = true ∨
        |dot (vsub n.pos ctx.position) (normalOf ctx.direction)| < 4)))
    (hahead : ¬ dot (smul (1 / n.dist) (vsub n.pos ctx.position))
        ctx.direction < 0)
    (hveh : n.isVehicle = true)
    (hinter : n.interDist = some (md, hd)) :
    neighborStep ctx mfd n =
      (if md - min ctx.speed 2.5 < hd - min n.speed 2.5 then mfd
       else min mfd (n.dist - ctx.width / 2)) ∧
    (md - min ctx.speed 2.5 = hd - min n.speed 2.5 →
      neighborStep ctx mfd n = min mfd (n.dist - ctx.width / 2)) := by
  have hmain : neighborStep ctx mfd n =
      if md - min ctx.speed 2.5 < hd - min n.speed 2.5 then mfd
      else min mfd (n.dist - ctx.width / 2) := by
    simp only [neighborStep]
    rw [if_neg hfar, if_neg hncone,
      if_neg (fun h => h.elim hahead fun hnb => hnb hveh), hinter]
  refine ⟨hmain, fun htie => ?_⟩
  rw [hmain, if_neg (by rw [htie]; exact lt_irrefl _)]

/-- Claim C2 counterexample: a concrete crossing neighbor whose adjusted
distance exactly ties the agent's (both 2): the loop folds the neighbor's
distance in (the minimum front distance becomes 5 - 2/2 = 4, not the
untouched 50), so on an exact tie the agent yields; the claim's "ties favor
continuing / the neighbor is ignored" is false, and its overall comparison
direction is inverted. -/
theorem claim2_counterexample :
    (2 - min exCtx.speed 2.5 = 2 - min exNeighborTie.speed 2.5) ∧
    neighborStep exCtx 50 exNeighborTie = 4 ∧
    ¬ neighborStep exCtx 50 exNeighborTie = 50 := by
  have heval : neighborStep exCtx 50 exNeighborTie = 4 := by
    norm_num [neighborStep, exCtx, exNeighborTie, distance2, dot, smul, vsub,
      normalOf, TraverseKind.is_lane]
  exact ⟨rfl, heval, by rw [heval]; norm_num⟩

/-- Claim C2 witness: the amended crossing rule at a concrete neighbor the
agent strictly beats to the crossing point (adjusted distances 1 versus 3);
the neighbor is ignored and the minimum front distance stays 50. -/
theorem claim2_witness :
    neighborStep exCtx 50 exNeighborBeaten = 50 := by
  have h := (claim2 exCtx 50 exNeighborBeaten 1 3
    (by norm_num [distance2, exCtx, exNeighborBeaten])
    (by norm_num [dot, smul, vsub, normalOf, exCtx, exNeighborBeaten,
      TraverseKind.is_lane])
    (by norm_num [dot, smul, vsub, exCtx, exNeighborBeaten])
    rfl rfl).1
  rw [h, if_pos (by norm_num [exCtx, exNeighborBeaten])]

/-- Claim C5 (amended): whenever `calc_decision` runs with no active
cooldown, a target point present at a well-defined direction, absolute
signed speed below 0.2 and minimum front distance below 1.5, it sets the
agent's wait-time cooldown to 0.5 times a uniform draw from [0,1) — a
nonnegative duration strictly less than 0.5 seconds, possibly zero — and
returns without updating the desired speed or the desired direction. -/
theorem claim5 (v : VehicleState) (ctx : DecisionCtx) (o : Vec2)
    (dd : Vec2 × ℚ)
    (hw : ¬ v.waitTime > 0) (hobj : ctx.objective = some o)
    (hdd : ctx.dirDist = some dd) (hspeed : |ctx.speed| < 0.2)
    (hmfd : ctx.neighbors.foldl (neighborStep ctx) 50 < 1.5)
    (hr0 : 0 ≤ ctx.randDraw) (hr1 : ctx.randDraw < 1) :
    calc_decision v ctx = { v with waitTime := ctx.randDraw * 0.5 } ∧
    0 ≤ ctx.randDraw * 0.5 ∧ ctx.randDraw * 0.5 < 0.5 ∧
    (calc_decision v ctx).desiredSpeed = v.desiredSpeed ∧
    (calc_decision v ctx).desiredDir = v.desiredDir := by
  obtain ⟨dtp, dsp⟩ := dd
  have hmain : calc_decision v ctx = { v with waitTime := ctx.randDraw * 0.5 } := by
    simp only [calc_decision, hobj, hdd]
    rw [if_neg hw, if_pos ⟨hspeed, hmfd⟩]
  refine ⟨hmain, mul_nonneg hr0 (by norm_num), ?_, by rw [hmain],
    by rw [hmain]⟩
  have h := mul_lt_mul_of_pos_right hr1 (show (0:ℚ) < 0.5 by norm_num)
  simpa using h

/-- Claim C5 counterexample: with the uniform draw hitting 0 — which the
Standard distribution on [0,1) can produce — the assigned cooldown is
0 * 0.5 = 0, not positive: the agent is free to retry on the very next
tick, refuting the claim's "positive" duration. -/
theorem claim5_counterexample :
    (calc_decision exVehState
      { exCtx with neighbors := [exNeighborFront], randDraw := 0 }).waitTime
      = 0 ∧
    ¬ 0 < (calc_decision exVehState
      { exCtx with neighbors := [exNeighborFront], randDraw := 0 }).waitTime := by
  have heval : (calc_decision exVehState
      { exCtx with neighbors := [exNeighborFront], randDraw := 0 }).waitTime
      = 0 := by
    norm_num [calc_decision, neighborStep, exVehState, exCtx, exNeighborFront,
      distance2, dot, smul, vsub, normalOf, TraverseKind.is_lane, stopDistOf]
  exact ⟨heval, by rw [heval]; norm_num⟩

/-- Claim C5 witness: the amended theorem at a concrete deadlock
configuration (stopped agent, stopped leading vehicle 1 unit ahead) with
draw 1/2: the cooldown becomes 1/2 * 0.5 = 1/4 and the desired speed is
untouched. -/
theorem claim5_witness :
    calc_decision exVehState
        { exCtx with neighbors := [exNeighborFront], randDraw := 1/2 } =
      { exVehState with waitTime := (1/2 : ℚ) * 0.5 } ∧
    (calc_decision exVehState
      { exCtx with neighbors := [exNeighborFront], randDraw := 1/2 }).desiredSpeed
      = exVehState.desiredSpeed := by
  have hmfd : ({ exCtx with neighbors := [exNeighborFront], randDraw := 1/2 } :
      DecisionCtx).neighbors.foldl
      (neighborStep { exCtx with neighbors := [exNeighborFront], randDraw := 1/2 })
      50 < 1.5 := by
    norm_num [neighborStep, exCtx, exNeighborFront, distance2, dot, smul, vsub,
      normalOf, TraverseKind.is_lane]
  have h := claim5 exVehState
    { exCtx with neighbors := [exNeighborFront], randDraw := 1/2 }
    (10, 0) ((1, 0), 10) (by norm_num [exVehState]) rfl rfl
    (by norm_num [exCtx]) hmfd (by norm_num) (by norm_num)
  exact ⟨h.1, h.2.2.2.1⟩

/-- Claim C6: for every pair of adjacent lanes, `Turn::make_points`
produces exactly 2 points when the turn's kind is Crosswalk, and exactly 8
points when the kind is Normal or WalkingCorner — starting at the source
lane's end position and finishing at the destination lane's — discarding
any previously stored points. -/
theorem claim6 (magnitude : Vec2 → ℚ) (lanes : Lanes) (t : Turn) :
    ((t.make_points magnitude lanes).points.length =
      if t.kind.is_crosswalk then 2 else 8) ∧
    ((t.make_points magnitude lanes).points.head? =
      some ((lanes t.id.src).interNodePos t.id.parent)) ∧
    ((t.make_points magnitude lanes).points.getLast? =
      some ((lanes t.id.dst).interNodePos t.id.parent)) ∧
    (∀ pts, ({ t with points := pts } : Turn).make_points magnitude lanes =
      t.make_points magnitude lanes) ∧
    (∀ k : TurnKind, k.is_crosswalk = false ↔
      (k = TurnKind.Normal ∨ k = TurnKind.WalkingCorner)) := by
  refine ⟨?_, ?_, ?_, fun pts => rfl, fun k => by
    cases k <;> simp [TurnKind.is_crosswalk]⟩
  · unfold Turn.make_points
    by_cases h : t.kind.is_crosswalk = true
    · simp [h]
    · have hc : ¬ t.kind.is_crosswalk = true := h
      rw [if_neg hc, if_neg hc]
      simp only [List.length_append, List.length_map, List.length_range',
        List.length_cons, List.length_nil, List.nil_append]
  · unfold Turn.make_points
    by_cases h : t.kind.is_crosswalk = true
    · simp [h]
    · have hc : ¬ t.kind.is_crosswalk = true := h
      rw [if_neg hc]
      simp only [List.nil_append, List.singleton_append, List.cons_append,
        List.head?_cons]
  · unfold Turn.make_points
    by_cases h : t.kind.is_crosswalk = true
    · simp [h]
    · have hc : ¬ t.kind.is_crosswalk = true := h
      rw [if_neg hc]
      simp only [List.nil_append, List.singleton_append]
      rw [List.getLast?_concat]

end Scale
